/-
Verification of the lamp repository: a shallow embedding of the model
invocation layer (src/source/lamp.ts) and the evaluation harness
(src/source/evaluate.ts), with theorems checking the natural-language
specification against the code.

JavaScript numbers are modelled as rationals; Math.sqrt is modelled as
Real.sqrt. Asynchronous fallible computations (promises that may reject)
are modelled as Except values. The external generation capabilities
(generateText and generateObject from the ai package) are parameters:
functions from the exact call payload the code builds to a fallible
result.
-/
import Mathlib

namespace Lamp

/-! ## Data model from src/source/lamp.ts -/

/-- Usage statistics for a language model interaction
(type Usage, lamp.ts lines 101-114). -/
structure Usage where
  promptTokens : ℚ
  completionTokens : ℚ
  totalTokens : ℚ
  deriving Repr, DecidableEq

/-- The generation settings bag of lamp.ts (interface ModelSettings,
lines 13-87): every optional field, including the debug flag. The
abortSignal is an opaque token. -/
structure ModelSettings where
  maxTokens : Option ℚ := none
  temperature : Option ℚ := none
  topP : Option ℚ := none
  topK : Option ℚ := none
  presencePenalty : Option ℚ := none
  frequencyPenalty : Option ℚ := none
  stopSequences : Option (List String) := none
  seed : Option ℚ := none
  maxRetries : Option ℚ := none
  abortSignal : Option Unit := none
  headers : Option (List (String × Option String)) := none
  debug : Option Bool := none
  deriving Repr, DecidableEq

/-- LMPConfig (lamp.ts lines 120-121): the model handle and an optional
schema together with the flat ModelSettings bag. The destructuring
pattern of the source, `\x7b model, schema, ...settings \x7d`, corresponds to
the projections `model`, `schema` and `toModelSettings`. -/
structure LMPConfig (Model Sch : Type) extends ModelSettings where
  model : Model
  schema : Option Sch := none

/-- What a prompt function may return (LMPPromptFunction, lamp.ts
lines 139-144): a bare prompt string or a system/prompt pair. -/
inductive PromptOut where
  | bare (prompt : String)
  | withSystem (system prompt : String)
  deriving Repr, DecidableEq

/-- Lines 205-208 of lamp.ts: a bare string means the system message is
absent. -/
def promptParts : PromptOut → Option String × String
  | .bare p => (none, p)
  | .withSystem s p => (some s, p)

/-- The payload the code hands to the external generateText capability
(lamp.ts lines 274-279): model, system, prompt, and the spread settings. -/
structure TextCall (Model : Type) where
  model : Model
  system : Option String
  prompt : String
  settings : ModelSettings

/-- The payload the code hands to the external generateObject capability
(lamp.ts lines 249-255): model, system, prompt, schema, and the spread
settings. -/
structure ObjectCall (Model Sch : Type) where
  model : Model
  system : Option String
  prompt : String
  schema : Sch
  settings : ModelSettings

/-- Result of the external generateText capability. -/
structure TextResult where
  text : String
  usage : Usage
  deriving Repr, DecidableEq

/-- Result of the external generateObject capability. -/
structure ObjectResult (Obj : Type) where
  object : Obj
  usage : Usage

/-- The internal result value of a bound invoker call (lamp.ts line 210:
`result : \x7b text?: string; object?: U; usage: Usage \x7d`). -/
structure GenResult (Obj : Type) where
  text : Option String := none
  object : Option Obj := none
  usage : Usage

/-- The text payload built inside getText (lamp.ts lines 274-279): the
settings spread after destructuring model and schema away, so every
remaining ModelSettings field, the debug flag included. -/
def textCallOf {Model Sch : Type} (cfg : LMPConfig Model Sch)
    (system : Option String) (prompt : String) : TextCall Model :=
  { model := cfg.model, system := system, prompt := prompt,
    settings := cfg.toModelSettings }

/-- The object payload built inside getObject (lamp.ts lines 249-255). -/
def objectCallOf {Model Sch : Type} (cfg : LMPConfig Model Sch)
    (system : Option String) (prompt : String) (s : Sch) :
    ObjectCall Model Sch :=
  { model := cfg.model, system := system, prompt := prompt, schema := s,
    settings := cfg.toModelSettings }

/-- JavaScript truthiness of an optional string: undefined and the empty
string are falsy. -/
def jsTruthyStr : Option String → Bool
  | none => false
  | some s => !(s = "")

/-- JavaScript truthiness of an optional boolean: only true is truthy. -/
def jsTruthyBool : Option Bool → Bool
  | some b => b
  | none => false

/-- JSON.stringify applied to the optional object field, as coerced into
the output string of the trace: stringify of undefined gives undefined,
which the template literal renders as the text "undefined". -/
def jsonStringifyOpt {Obj : Type} (toJson : Obj → String) :
    Option Obj → String
  | none => "undefined"
  | some o => toJson o

/-- The trace block emitted by logMessages (lamp.ts lines 288-305), as
the list of logical lines written to the sink: the Prompt header, the
system line and a blank line when the system message is truthy, the user
line, the Output header, and the output line. -/
def logMessages (system : Option String) (user output : String) :
    List String :=
  ["Prompt:"]
    ++ (if jsTruthyStr system then ["system: " ++ system.getD "", ""] else [])
    ++ ["user: " ++ user]
    ++ ["Output:", output]

/-- Wrapping of the getText result into the internal result value
(lamp.ts lines 274-282: only text and usage are present). -/
def textToResult {Obj : Type} (r : TextResult) : GenResult Obj :=
  { text := some r.text, object := none, usage := r.usage }

/-- Wrapping of the getObject result into the internal result value
(lamp.ts lines 249-258: only object and usage are present). -/
def objectToResult {Obj : Type} (r : ObjectResult Obj) : GenResult Obj :=
  { text := none, object := some r.object, usage := r.usage }

/-- Lines 217-223 of lamp.ts: pair the result with the debug trace.
When the debug flag is truthy the Output section shows the text if it is
truthy and otherwise the JSON serialization of the object field. -/
def attachTrace {Model Sch Obj : Type} (toJson : Obj → String)
    (cfg : LMPConfig Model Sch) (system : Option String) (prompt : String)
    (result : GenResult Obj) : GenResult Obj × List String :=
  (result,
    if jsTruthyBool cfg.debug then
      logMessages system prompt
        (if jsTruthyStr result.text then result.text.getD ""
         else jsonStringifyOpt toJson result.object)
    else [])

/-- The schema dispatch (lamp.ts lines 210-215): if the configuration
carries a schema the call routes to getObject, otherwise to getText. -/
def dispatchCall {Model Sch Obj Err : Type}
    (genText : TextCall Model → Except Err TextResult)
    (genObject : ObjectCall Model Sch → Except Err (ObjectResult Obj))
    (cfg : LMPConfig Model Sch) (system : Option String) (prompt : String) :
    Except Err (GenResult Obj) :=
  match cfg.schema with
  | some s => (genObject (objectCallOf cfg system prompt s)).map objectToResult
  | none => (genText (textCallOf cfg system prompt)).map textToResult

/-- The bound invoker produced by lamp (lamp.ts lines 194-229),
parameterized by the two external generation capabilities and the JSON
serializer. Each call evaluates the prompt function, splits its result
into system and prompt, dispatches on the presence of the schema, and
returns the result paired with the debug trace (empty when the debug
flag is not set). -/
def lamp {Model Sch Obj Arg Err : Type}
    (genText : TextCall Model → Except Err TextResult)
    (genObject : ObjectCall Model Sch → Except Err (ObjectResult Obj))
    (toJson : Obj → String) (cfg : LMPConfig Model Sch)
    (promptFn : Arg → PromptOut) :
    Arg → Except Err (GenResult Obj × List String) :=
  fun args =>
    let parts := promptParts (promptFn args)
    let system := parts.1
    let prompt := parts.2
    (dispatchCall genText genObject cfg system prompt).map
      (attachTrace toJson cfg system prompt)

end Lamp

namespace Evaluate

open Lamp

/-! ## Data model from src/source/evaluate.ts -/

/-- StatisticsResult (evaluate.ts lines 3-9). The std field is a real
number because the source takes Math.sqrt of the variance. -/
structure StatisticsResult where
  average : ℚ
  median : ℚ
  std : ℝ
  max : ℚ
  min : ℚ

/-- The numeric-ascending comparator of the sort call
`[...numbers].sort((a, b) => a - b)` (evaluate.ts line 17). -/
def qle : ℚ → ℚ → Bool := fun a b => decide (a ≤ b)

/-- describe (evaluate.ts lines 11-48): fails on an empty input,
otherwise computes average, median, population standard deviation,
maximum and minimum over a value-sorted copy of the input. -/
noncomputable def describe (numbers : List ℚ) :
    Except String StatisticsResult :=
  if numbers.length = 0 then .error "Input array is empty"
  else
    let sortedNumbers := numbers.mergeSort qle
    let sum := sortedNumbers.foldl (fun acc val => acc + val) 0
    let average := sum / (sortedNumbers.length : ℚ)
    let middle := sortedNumbers.length / 2
    let median :=
      if sortedNumbers.length % 2 = 0 then
        (sortedNumbers.getD (middle - 1) 0 + sortedNumbers.getD middle 0) / 2
      else sortedNumbers.getD middle 0
    let squaredDifferences := sortedNumbers.map (fun num => (num - average) ^ 2)
    let variance :=
      squaredDifferences.foldl (fun acc val => acc + val) 0 /
        (sortedNumbers.length : ℚ)
    let std := Real.sqrt (variance : ℝ)
    let mx := sortedNumbers.getD (sortedNumbers.length - 1) 0
    let mn := sortedNumbers.getD 0 0
    .ok { average := average, median := median, std := std, max := mx,
          min := mn }

/-- A test case (evaluate.ts lines 53-56): the input tuple for the
bound invoker and the expected reference output. -/
structure TestCase (Arg : Type) where
  input : Arg
  output : String

/-- EvalConfig as supplied by the caller (evaluate.ts lines 51-62):
every field optional. -/
structure EvalConfig (Arg Obj : Type) where
  iterations : Option ℤ := none
  testCases : Option (List (TestCase Arg)) := none
  evaluator : Option (TestCase Arg → GenResult Obj → Except String ℚ) := none
  benchmark : Option Bool := none

/-- The merged configuration held by an Evaluator
(Required EvalConfig, evaluate.ts line 86). -/
structure MergedConfig (Arg Obj : Type) where
  iterations : ℤ
  testCases : List (TestCase Arg)
  evaluator : TestCase Arg → GenResult Obj → Except String ℚ
  benchmark : Bool

/-- The constructor merge (evaluate.ts lines 88-96): spread of the
caller configuration over the defaults, so a field explicitly supplied
by the caller always wins, whatever its value. -/
def mergeDefaults {Arg Obj : Type} (config : EvalConfig Arg Obj) :
    MergedConfig Arg Obj :=
  { iterations := config.iterations.getD 1,
    testCases := config.testCases.getD [],
    evaluator := config.evaluator.getD (fun _ _ => .ok 0),
    benchmark := config.benchmark.getD false }

/-- The Evaluator class (evaluate.ts lines 81-147): it owns the merged
configuration. -/
structure Evaluator (Arg Obj : Type) where
  config : MergedConfig Arg Obj

/-- lampEval (evaluate.ts lines 149-155): construct an Evaluator,
merging defaults. -/
def lampEval {Arg Obj : Type} (config : EvalConfig Arg Obj) :
    Evaluator Arg Obj :=
  ⟨mergeDefaults config⟩

/-- One trial of the run loop (evaluate.ts lines 109-122): the awaited
invocation result, the token counts pushed from its usage record, the
elapsed wall-clock time, and the score from the evaluator function. -/
structure Trial (Obj : Type) where
  response : GenResult Obj
  promptTok : ℚ
  complTok : ℚ
  time : ℚ
  score : ℚ

/-- The inner iteration loop (evaluate.ts lines 108-123) for one test
case: m remaining iterations, k trials already performed globally. The
clock now gives the value of performance.now at its j-th reading; each
trial reads it twice. A rejection of the invoker or of the evaluator
function aborts the whole loop. -/
def runIters {Arg Obj : Type}
    (fn : Arg → Except String (GenResult Obj))
    (evaluator : TestCase Arg → GenResult Obj → Except String ℚ)
    (now : ℕ → ℚ) (tc : TestCase Arg) :
    ℕ → ℕ → Except String (List (Trial Obj))
  | 0, _ => .ok []
  | m + 1, k => do
    let startTime := now (2 * k)
    let result ← fn tc.input
    let endTime := now (2 * k + 1)
    let score ← evaluator tc result
    let rest ← runIters fn evaluator now tc m (k + 1)
    .ok ({ response := result,
           promptTok := result.usage.promptTokens,
           complTok := result.usage.completionTokens,
           time := endTime - startTime,
           score := score } :: rest)

/-- The outer loop over test cases (evaluate.ts line 107), with k the
number of trials already performed. -/
def runCases {Arg Obj : Type}
    (fn : Arg → Except String (GenResult Obj))
    (evaluator : TestCase Arg → GenResult Obj → Except String ℚ)
    (now : ℕ → ℚ) (m : ℕ) :
    List (TestCase Arg) → ℕ → Except String (List (Trial Obj))
  | [], _ => .ok []
  | tc :: rest, k => do
    let ts ← runIters fn evaluator now tc m k
    let rs ← runCases fn evaluator now m rest (k + m)
    .ok (ts ++ rs)

/-- One metric of the eval result (evaluate.ts lines 64-76): the raw
value series together with its descriptive statistics. -/
structure Series where
  values : List ℚ
  stats : StatisticsResult

/-- EvalResult (evaluate.ts lines 64-79). -/
structure EvalResult (Arg Obj : Type) where
  scores : Series
  executionTimes : Series
  promptTokens : Series
  completionTokens : Series
  responses : List (GenResult Obj)
  testCases : List (TestCase Arg)

/-- Evaluator.run (evaluate.ts lines 98-146): perform the trials in
order (test cases in input order, iterations ascending), collect the
series, push execution times only in benchmark mode, and compute the
descriptive statistics of each series, in the order the result object
literal evaluates them. The iteration count runs through Int.toNat:
a non-positive iterations value performs zero iterations, exactly like
the for loop of the source. -/
noncomputable def Evaluator.run {Arg Obj : Type} (ev : Evaluator Arg Obj)
    (fn : Arg → Except String (GenResult Obj)) (now : ℕ → ℚ) :
    Except String (EvalResult Arg Obj) := do
  let trials ← runCases fn ev.config.evaluator now ev.config.iterations.toNat
      ev.config.testCases 0
  let scores := trials.map (fun t => t.score)
  let responses := trials.map (fun t => t.response)
  let promptTokens := trials.map (fun t => t.promptTok)
  let responseTokens := trials.map (fun t => t.complTok)
  let executionTimes := if ev.config.benchmark then
      trials.map (fun t => t.time) else []
  let scoreStats ← describe scores
  let timeStats ← describe executionTimes
  let promptStats ← describe promptTokens
  let completionStats ← describe responseTokens
  .ok { scores := ⟨scores, scoreStats⟩,
        executionTimes := ⟨executionTimes, timeStats⟩,
        promptTokens := ⟨promptTokens, promptStats⟩,
        completionTokens := ⟨responseTokens, completionStats⟩,
        responses := responses,
        testCases := ev.config.testCases }

end Evaluate

namespace Evaluate

open Lamp

/-! ## The run loop in the pure case

When the bound invoker and the evaluator function always succeed and are
deterministic, the trial loop produces an explicit list of trials; these
definitions name that list so the theorems can state lengths and
per-index values. -/

/-- The trial the run loop performs at global position k for test case
tc, when the invoker is the pure f and the evaluator the pure e. -/
def pureTrial {Arg Obj : Type} (f : Arg → GenResult Obj)
    (e : TestCase Arg → GenResult Obj → ℚ) (now : ℕ → ℚ)
    (tc : TestCase Arg) (k : ℕ) : Trial Obj :=
  { response := f tc.input,
    promptTok := (f tc.input).usage.promptTokens,
    complTok := (f tc.input).usage.completionTokens,
    time := now (2 * k + 1) - now (2 * k),
    score := e tc (f tc.input) }

/-- The trials the inner loop performs: m iterations starting at global
position k. -/
def pureIters {Arg Obj : Type} (f : Arg → GenResult Obj)
    (e : TestCase Arg → GenResult Obj → ℚ) (now : ℕ → ℚ)
    (tc : TestCase Arg) : ℕ → ℕ → List (Trial Obj)
  | 0, _ => []
  | m + 1, k => pureTrial f e now tc k :: pureIters f e now tc m (k + 1)

/-- The trials the outer loop performs: m iterations per test case,
starting at global position k. -/
def pureCases {Arg Obj : Type} (f : Arg → GenResult Obj)
    (e : TestCase Arg → GenResult Obj → ℚ) (now : ℕ → ℚ) (m : ℕ) :
    List (TestCase Arg) → ℕ → List (Trial Obj)
  | [], _ => []
  | tc :: rest, k =>
      pureIters f e now tc m k ++ pureCases f e now m rest (k + m)

end Evaluate

/-! ## Fixtures for concrete instantiations -/

namespace Fix

open Lamp Evaluate

/-- A concrete usage record. -/
def unitUsage : Usage := ⟨1, 2, 3⟩

/-- A generateText capability that always succeeds with a fixed text. -/
def fixText : TextCall Unit → Except String TextResult :=
  fun _ => .ok ⟨"out", unitUsage⟩

/-- A generateObject capability that always succeeds with a fixed object. -/
def fixObject : ObjectCall Unit Unit → Except String (ObjectResult Bool) :=
  fun _ => .ok ⟨true, unitUsage⟩

/-- A concrete JSON serializer for booleans. -/
def fixJson : Bool → String := fun b => if b then "true" else "false"

/-- A text-mode configuration: no schema. -/
def cfgText : LMPConfig Unit Unit := { model := () }

/-- An object-mode configuration: schema present. -/
def cfgObj : LMPConfig Unit Unit := { model := (), schema := some () }

/-- A generateText capability that reports whether the debug flag reached
it inside the forwarded settings. -/
def debugProbeText : TextCall Unit → Except String TextResult :=
  fun c =>
    .ok ⟨if c.settings.debug = some true then "debug forwarded"
         else "debug stripped", unitUsage⟩

/-- A configuration with the debug flag set. -/
def debugProbeCfg : LMPConfig Unit Unit := { model := (), debug := some true }

/-- A concrete test case over a unit input tuple. -/
def tc : TestCase Unit := ⟨(), "expected"⟩

/-- A concrete invocation result. -/
def fixResult : GenResult Bool := { text := some "out", usage := unitUsage }

/-- A concrete always-succeeding bound invoker. -/
def fixFn : Unit → Except String (GenResult Bool) := fun _ => .ok fixResult

/-- A concrete clock for performance.now readings. -/
def fixNow : ℕ → ℚ := fun j => j

/-- A test case the concrete evaluator function scores successfully. -/
def goodTC : TestCase Unit := ⟨(), "good"⟩

/-- A test case the concrete evaluator function rejects. -/
def badTC : TestCase Unit := ⟨(), "bad"⟩

/-- A concrete evaluator function that succeeds on the good test case
and rejects on any other. -/
def pickyEval : TestCase Unit → GenResult Bool → Except String ℚ :=
  fun tcase _ => if tcase.output = "good" then .ok 0 else .error "badscore"

/-- A caller configuration that explicitly supplies zero iterations. -/
def zeroIterCfg : EvalConfig Unit Bool :=
  { iterations := some 0, testCases := some [tc] }

/-- A merged configuration with no test cases. -/
def emptyCasesCfg : MergedConfig Unit Bool :=
  ⟨1, [], fun _ _ => .ok 0, false⟩

end Fix

/-! ## Helper lemmas -/

open Lamp Evaluate

theorem except_map_ok_iff {ε α β : Type _} (e : Except ε α) (f : α → β)
    (b : β) : e.map f = Except.ok b ↔ ∃ a, e = .ok a ∧ f a = b := by
  cases e <;> simp [Except.map]

theorem except_bind_ok {ε α β : Type _} (a : α) (f : α → Except ε β) :
    (Except.ok a >>= f) = f a := rfl

theorem except_bind_error {ε α β : Type _} (err : ε) (f : α → Except ε β) :
    (Except.error err >>= f : Except ε β) = .error err := rfl

theorem lamp_fst {Model Sch Obj Arg Err : Type}
    (genText : TextCall Model → Except Err TextResult)
    (genObject : ObjectCall Model Sch → Except Err (ObjectResult Obj))
    (toJson : Obj → String) (cfg : LMPConfig Model Sch)
    (promptFn : Arg → PromptOut) (args : Arg) :
    (lamp genText genObject toJson cfg promptFn args).map Prod.fst =
      dispatchCall genText genObject cfg (promptParts (promptFn args)).1
        (promptParts (promptFn args)).2 := by
  have h : lamp genText genObject toJson cfg promptFn args =
      (dispatchCall genText genObject cfg (promptParts (promptFn args)).1
        (promptParts (promptFn args)).2).map
        (attachTrace toJson cfg (promptParts (promptFn args)).1
          (promptParts (promptFn args)).2) := rfl
  rw [h]
  cases hd : dispatchCall genText genObject cfg
      (promptParts (promptFn args)).1 (promptParts (promptFn args)).2 <;>
    simp [Except.map, attachTrace]

theorem runIters_pure {Arg Obj : Type} (f : Arg → GenResult Obj)
    (e : TestCase Arg → GenResult Obj → ℚ) (now : ℕ → ℚ)
    (tc : TestCase Arg) (m k : ℕ) :
    runIters (fun a => .ok (f a)) (fun tcase r => .ok (e tcase r)) now tc m k
      = .ok (pureIters f e now tc m k) := by
  induction m generalizing k with
  | zero => rfl
  | succ m ih =>
      simp only [runIters, pureIters, pureTrial, except_bind_ok, ih]

theorem runCases_pure {Arg Obj : Type} (f : Arg → GenResult Obj)
    (e : TestCase Arg → GenResult Obj → ℚ) (now : ℕ → ℚ) (m : ℕ)
    (tcs : List (TestCase Arg)) (k : ℕ) :
    runCases (fun a => .ok (f a)) (fun tcase r => .ok (e tcase r)) now m tcs k
      = .ok (pureCases f e now m tcs k) := by
  induction tcs generalizing k with
  | nil => rfl
  | cons tc rest ih =>
      simp only [runCases, pureCases, runIters_pure, except_bind_ok, ih]

theorem runIters_zero {Arg Obj : Type}
    (fn : Arg → Except String (GenResult Obj))
    (evf : TestCase Arg → GenResult Obj → Except String ℚ) (now : ℕ → ℚ)
    (tc : TestCase Arg) (k : ℕ) :
    runIters fn evf now tc 0 k = .ok [] := rfl

theorem runCases_zero {Arg Obj : Type}
    (fn : Arg → Except String (GenResult Obj))
    (evf : TestCase Arg → GenResult Obj → Except String ℚ) (now : ℕ → ℚ)
    (tcs : List (TestCase Arg)) (k : ℕ) :
    runCases fn evf now 0 tcs k = .ok [] := by
  induction tcs generalizing k with
  | nil => rfl
  | cons tc rest ih =>
      simp only [runCases, runIters_zero, except_bind_ok, ih,
        List.nil_append]

theorem pureIters_length {Arg Obj : Type} (f : Arg → GenResult Obj)
    (e : TestCase Arg → GenResult Obj → ℚ) (now : ℕ → ℚ)
    (tc : TestCase Arg) (m k : ℕ) :
    (pureIters f e now tc m k).length = m := by
  induction m generalizing k with
  | zero => rfl
  | succ m ih => simp [pureIters, ih]

theorem pureCases_length {Arg Obj : Type} (f : Arg → GenResult Obj)
    (e : TestCase Arg → GenResult Obj → ℚ) (now : ℕ → ℚ) (m : ℕ)
    (tcs : List (TestCase Arg)) (k : ℕ) :
    (pureCases f e now m tcs k).length = tcs.length * m := by
  induction tcs generalizing k with
  | nil => simp [pureCases]
  | cons tc rest ih =>
      simp [pureCases, pureIters_length, ih, Nat.succ_mul, Nat.add_comm]

theorem pureIters_getElem {Arg Obj : Type} (f : Arg → GenResult Obj)
    (e : TestCase Arg → GenResult Obj → ℚ) (now : ℕ → ℚ)
    (tc : TestCase Arg) (m k j : ℕ) (hj : j < m) :
    (pureIters f e now tc m k)[j]? = some (pureTrial f e now tc (k + j)) := by
  induction m generalizing k j with
  | zero => omega
  | succ m ih =>
      cases j with
      | zero => simp [pureIters]
      | succ j =>
          have hj' : j < m := by omega
          simp only [pureIters, List.getElem?_cons_succ, ih (k + 1) j hj']
          have : k + 1 + j = k + (j + 1) := by omega
          rw [this]

theorem pureCases_getElem {Arg Obj : Type} (f : Arg → GenResult Obj)
    (e : TestCase Arg → GenResult Obj → ℚ) (now : ℕ → ℚ) (m : ℕ)
    (tcs : List (TestCase Arg)) (k j : ℕ) (hj : j < tcs.length * m) :
    ∃ tc, tcs[j / m]? = some tc ∧
      (pureCases f e now m tcs k)[j]? = some (pureTrial f e now tc (k + j)) := by
  induction tcs generalizing k j with
  | nil => simp at hj
  | cons tc rest ih =>
      have hm : 0 < m := by
        rcases Nat.eq_zero_or_pos m with h0 | h0
        · rw [h0] at hj; omega
        · exact h0
      by_cases hcase : j < m
      · refine ⟨tc, ?_, ?_⟩
        · rw [Nat.div_eq_of_lt hcase]; simp
        · rw [pureCases, List.getElem?_append,
            if_pos (by rw [pureIters_length]; exact hcase),
            pureIters_getElem f e now tc m k j hcase]
      · have hle : m ≤ j := Nat.le_of_not_lt hcase
        have hj' : j - m < rest.length * m := by
          have : (tc :: rest).length * m = m + rest.length * m := by
            simp [Nat.succ_mul, Nat.add_comm]
          omega
        obtain ⟨tc', htc', hval⟩ := ih (k + m) (j - m) hj'
        refine ⟨tc', ?_, ?_⟩
        · have hdiv : j / m = (j - m) / m + 1 := by
            have h1 : j - m + m = j := Nat.sub_add_cancel hle
            calc j / m = (j - m + m) / m := by rw [h1]
              _ = (j - m) / m + 1 := Nat.add_div_right _ hm
          rw [hdiv]; simpa using htc'
        · rw [pureCases, List.getElem?_append,
            if_neg (by rw [pureIters_length]; omega)]
          rw [pureIters_length]
          have harith : k + m + (j - m) = k + j := by omega
          rw [hval, harith]

theorem describe_nil : describe [] = .error "Input array is empty" := rfl

theorem describe_of_ne_nil (S : List ℚ) (hS : S.length ≠ 0) :
    describe S = .ok
      { average := (S.mergeSort qle).foldl (fun acc val => acc + val) 0 /
          ((S.mergeSort qle).length : ℚ),
        median :=
          if (S.mergeSort qle).length % 2 = 0 then
            ((S.mergeSort qle).getD ((S.mergeSort qle).length / 2 - 1) 0 +
              (S.mergeSort qle).getD ((S.mergeSort qle).length / 2) 0) / 2
          else (S.mergeSort qle).getD ((S.mergeSort qle).length / 2) 0,
        std := Real.sqrt
          ((((S.mergeSort qle).map
              (fun num => (num - (S.mergeSort qle).foldl
                (fun acc val => acc + val) 0 /
                  ((S.mergeSort qle).length : ℚ)) ^ 2)).foldl
            (fun acc val => acc + val) 0 / ((S.mergeSort qle).length : ℚ) : ℚ)),
        max := (S.mergeSort qle).getD ((S.mergeSort qle).length - 1) 0,
        min := (S.mergeSort qle).getD 0 0 } := by
  unfold describe
  rw [if_neg hS]

theorem mergeSort_qle_pairwise (S : List ℚ) :
    (S.mergeSort qle).Pairwise (fun a b => a ≤ b) := by
  have h : (S.mergeSort qle).Pairwise (fun a b => qle a b = true) :=
    List.sorted_mergeSort
      (fun a b c hab hbc => by
        simp only [qle, decide_eq_true_eq] at hab hbc ⊢
        exact le_trans hab hbc)
      (fun a b => by simp only [qle]; simpa using le_total a b) S
  exact h.imp (fun hab => by simpa [qle] using hab)

theorem sorted_le_getD_last (l : List ℚ) (hs : l.Pairwise (fun a b => a ≤ b)) :
    ∀ x ∈ l, x ≤ l.getD (l.length - 1) 0 := by
  induction l with
  | nil => intro x hx; simp at hx
  | cons a t ih =>
      intro x hx
      cases t with
      | nil =>
          simp only [List.mem_singleton] at hx
          simp [hx, List.getD_cons_zero]
      | cons b t' =>
          have hshift : (a :: b :: t').getD ((a :: b :: t').length - 1) 0 =
              (b :: t').getD ((b :: t').length - 1) 0 := by
            simp [List.getD_cons_succ]
          rw [hshift]
          rcases List.mem_cons.mp hx with hxa | hxt
          · have hmem : (b :: t').getD ((b :: t').length - 1) 0 ∈ b :: t' := by
              have hlt : (b :: t').length - 1 < (b :: t').length := by simp
              rw [List.getD_eq_getElem _ 0 hlt]
              exact List.getElem_mem hlt
            have hall := (List.pairwise_cons.mp hs).1
            rw [hxa]
            exact hall _ hmem
          · exact ih (List.pairwise_cons.mp hs).2 x hxt

theorem sorted_getD_head_le (l : List ℚ) (hs : l.Pairwise (fun a b => a ≤ b)) :
    ∀ x ∈ l, l.getD 0 0 ≤ x := by
  cases l with
  | nil => intro x hx; simp at hx
  | cons a t =>
      intro x hx
      rw [List.getD_cons_zero]
      rcases List.mem_cons.mp hx with hxa | hxt
      · rw [hxa]
      · exact (List.pairwise_cons.mp hs).1 x hxt

theorem dispatchCall_none {Model Sch Obj Err : Type}
    (genText : TextCall Model → Except Err TextResult)
    (genObject : ObjectCall Model Sch → Except Err (ObjectResult Obj))
    (cfg : LMPConfig Model Sch) (sys : Option String) (p : String)
    (h : cfg.schema = none) :
    dispatchCall genText genObject cfg sys p =
      (genText (textCallOf cfg sys p)).map textToResult := by
  unfold dispatchCall
  rw [h]

theorem dispatchCall_some {Model Sch Obj Err : Type}
    (genText : TextCall Model → Except Err TextResult)
    (genObject : ObjectCall Model Sch → Except Err (ObjectResult Obj))
    (cfg : LMPConfig Model Sch) (sys : Option String) (p : String)
    (s : Sch) (h : cfg.schema = some s) :
    dispatchCall genText genObject cfg sys p =
      (genObject (objectCallOf cfg sys p s)).map objectToResult := by
  unfold dispatchCall
  rw [h]

theorem lamp_eq_dispatch {Model Sch Obj Arg Err : Type}
    (genText : TextCall Model → Except Err TextResult)
    (genObject : ObjectCall Model Sch → Except Err (ObjectResult Obj))
    (toJson : Obj → String) (cfg : LMPConfig Model Sch)
    (promptFn : Arg → PromptOut) (args : Arg) :
    lamp genText genObject toJson cfg promptFn args =
      (dispatchCall genText genObject cfg (promptParts (promptFn args)).1
        (promptParts (promptFn args)).2).map
        (attachTrace toJson cfg (promptParts (promptFn args)).1
          (promptParts (promptFn args)).2) := rfl

/-- Claim C1, amended: the settings object forwarded to the external
generation capability contains every generation setting of the
configuration, the debug flag included; only the model handle and the
schema are removed from the settings bag (the model is passed as its own
argument, and in object mode the schema likewise). -/
theorem lamp_settings_forwarding {Model Sch : Type} (cfg : LMPConfig Model Sch)
    (sys : Option String) (p : String) (s : Sch) :
    (textCallOf cfg sys p).settings = cfg.toModelSettings ∧
    (objectCallOf cfg sys p s).settings = cfg.toModelSettings ∧
    (textCallOf cfg sys p).settings.maxTokens = cfg.maxTokens ∧
    (textCallOf cfg sys p).settings.temperature = cfg.temperature ∧
    (textCallOf cfg sys p).settings.topP = cfg.topP ∧
    (textCallOf cfg sys p).settings.topK = cfg.topK ∧
    (textCallOf cfg sys p).settings.presencePenalty = cfg.presencePenalty ∧
    (textCallOf cfg sys p).settings.frequencyPenalty = cfg.frequencyPenalty ∧
    (textCallOf cfg sys p).settings.stopSequences = cfg.stopSequences ∧
    (textCallOf cfg sys p).settings.seed = cfg.seed ∧
    (textCallOf cfg sys p).settings.maxRetries = cfg.maxRetries ∧
    (textCallOf cfg sys p).settings.abortSignal = cfg.abortSignal ∧
    (textCallOf cfg sys p).settings.headers = cfg.headers ∧
    (textCallOf cfg sys p).settings.debug = cfg.debug ∧
    (objectCallOf cfg sys p s).settings.debug = cfg.debug ∧
    (objectCallOf cfg sys p s).schema = s :=
  ⟨rfl, rfl, rfl, rfl, rfl, rfl, rfl, rfl, rfl, rfl, rfl, rfl, rfl, rfl, rfl,
    rfl⟩

/-- Claim C1, counterexample: the claim says the debug flag is stripped
from the settings before forwarding, but with the debug flag set the
payload forwarded to generateText still carries it, and a capability
probing the forwarded settings observes it. -/
theorem lamp_debug_forwarded_cex :
    (textCallOf Fix.debugProbeCfg none "p").settings.debug = some true ∧
    lamp Fix.debugProbeText
      (fun _ => .error "unused" :
        ObjectCall Unit Unit → Except String (ObjectResult Bool))
      Fix.fixJson Fix.debugProbeCfg (fun _ : Unit => .bare "p") () =
      .ok ({ text := some "debug forwarded", object := none,
             usage := Fix.unitUsage },
        ["Prompt:", "user: p", "Output:", "debug forwarded"]) :=
  ⟨rfl, rfl⟩

/-- Claim C2: a bound invoker whose configuration carries a schema only
ever resolves to an object-mode result with no text field, and one
without a schema only ever resolves to a text-mode result with no object
field; the shape depends only on the configuration, never on the call. -/
theorem lamp_mode_dispatch {Model Sch Obj Arg Err : Type}
    (genText : TextCall Model → Except Err TextResult)
    (genObject : ObjectCall Model Sch → Except Err (ObjectResult Obj))
    (toJson : Obj → String) (cfg : LMPConfig Model Sch)
    (promptFn : Arg → PromptOut) (args : Arg) (r : GenResult Obj)
    (tr : List String)
    (h : lamp genText genObject toJson cfg promptFn args = .ok (r, tr)) :
    (cfg.schema.isSome = true → (∃ o, r.object = some o) ∧ r.text = none) ∧
    (cfg.schema = none → (∃ t, r.text = some t) ∧ r.object = none) := by
  rw [lamp_eq_dispatch, except_map_ok_iff] at h
  obtain ⟨g, hg, hat⟩ := h
  have hgr : g = r := congrArg Prod.fst hat
  subst hgr
  constructor
  · intro hs
    rcases ho : cfg.schema with _ | s
    · rw [ho] at hs; simp at hs
    · rw [dispatchCall_some genText genObject cfg _ _ s ho,
        except_map_ok_iff] at hg
      obtain ⟨ores, hores, hwrap⟩ := hg
      exact ⟨⟨ores.object, by rw [← hwrap]; rfl⟩, by rw [← hwrap]; rfl⟩
  · intro hnone
    rw [dispatchCall_none genText genObject cfg _ _ hnone,
      except_map_ok_iff] at hg
    obtain ⟨tres, htres, hwrap⟩ := hg
    exact ⟨⟨tres.text, by rw [← hwrap]; rfl⟩, by rw [← hwrap]; rfl⟩

/-- Witness for C2 at a concrete text-mode invoker. -/
theorem lamp_mode_dispatch_witness :
    (lamp Fix.fixText Fix.fixObject Fix.fixJson Fix.cfgText
        (fun _ : Unit => .bare "p") () =
      .ok ({ text := some "out", object := none, usage := Fix.unitUsage }, [])) ∧
    ((Fix.cfgText.schema.isSome = true →
        (∃ o, ({ text := some "out", object := none, usage := Fix.unitUsage } :
          GenResult Bool).object = some o) ∧
        ({ text := some "out", object := none, usage := Fix.unitUsage } :
          GenResult Bool).text = none) ∧
      (Fix.cfgText.schema = none →
        (∃ t, ({ text := some "out", object := none, usage := Fix.unitUsage } :
          GenResult Bool).text = some t) ∧
        ({ text := some "out", object := none, usage := Fix.unitUsage } :
          GenResult Bool).object = none)) :=
  ⟨rfl, lamp_mode_dispatch Fix.fixText Fix.fixObject Fix.fixJson Fix.cfgText
    (fun _ : Unit => .bare "p") () _ _ rfl⟩

/-- Claim C6: when the prompt function returns a system/prompt pair the
external capability is called with exactly that system and prompt; when
it returns a bare string the capability is called with that string as
the prompt and with the system absent. -/
theorem lamp_prompt_forwarding {Model Sch Obj Arg Err : Type}
    (genText : TextCall Model → Except Err TextResult)
    (genObject : ObjectCall Model Sch → Except Err (ObjectResult Obj))
    (toJson : Obj → String) (cfg : LMPConfig Model Sch)
    (promptFn : Arg → PromptOut) (args : Arg) (S P : String) :
    (promptFn args = .withSystem S P →
      lamp genText genObject toJson cfg promptFn args =
        (dispatchCall genText genObject cfg (some S) P).map
          (attachTrace toJson cfg (some S) P)) ∧
    (promptFn args = .bare P →
      lamp genText genObject toJson cfg promptFn args =
        (dispatchCall genText genObject cfg none P).map
          (attachTrace toJson cfg none P)) ∧
    (textCallOf cfg (some S) P).system = some S ∧
    (textCallOf cfg (some S) P).prompt = P ∧
    (textCallOf cfg none P).system = none ∧
    (textCallOf cfg none P).prompt = P ∧
    (∀ s : Sch, (objectCallOf cfg (some S) P s).system = some S ∧
      (objectCallOf cfg (some S) P s).prompt = P ∧
      (objectCallOf cfg none P s).system = none ∧
      (objectCallOf cfg none P s).prompt = P) := by
  refine ⟨fun h => ?_, fun h => ?_, rfl, rfl, rfl, rfl,
    fun s => ⟨rfl, rfl, rfl, rfl⟩⟩
  · rw [lamp_eq_dispatch, h]; rfl
  · rw [lamp_eq_dispatch, h]; rfl

/-- Witness for C6 at a concrete prompt function returning a pair. -/
theorem lamp_prompt_forwarding_witness :
    ((fun _ : Unit => PromptOut.withSystem "S" "P") () =
      PromptOut.withSystem "S" "P") ∧
    lamp Fix.fixText Fix.fixObject Fix.fixJson Fix.cfgText
        (fun _ : Unit => PromptOut.withSystem "S" "P") () =
      (dispatchCall Fix.fixText Fix.fixObject Fix.cfgText (some "S") "P").map
        (attachTrace Fix.fixJson Fix.cfgText (some "S") "P") :=
  ⟨rfl, (lamp_prompt_forwarding Fix.fixText Fix.fixObject Fix.fixJson
    Fix.cfgText (fun _ : Unit => PromptOut.withSystem "S" "P") () "S" "P").1
    rfl⟩

theorem runIters_ok_of {Arg Obj : Type}
    (fn : Arg → Except String (GenResult Obj))
    (evf : TestCase Arg → GenResult Obj → Except String ℚ) (now : ℕ → ℚ)
    (tc : TestCase Arg) (r : GenResult Obj) (q : ℚ)
    (hfn : fn tc.input = .ok r) (hev : evf tc r = .ok q) :
    ∀ m k, ∃ ts, runIters fn evf now tc m k = .ok ts := by
  intro m
  induction m with
  | zero => exact fun k => ⟨[], rfl⟩
  | succ m ih =>
      intro k
      obtain ⟨ts, hts⟩ := ih (k + 1)
      exact ⟨{ response := r, promptTok := r.usage.promptTokens,
               complTok := r.usage.completionTokens,
               time := now (2 * k + 1) - now (2 * k), score := q } :: ts,
        by simp only [runIters, hfn, hev, hts, except_bind_ok]⟩

theorem runIters_head_err {Arg Obj : Type}
    (fn : Arg → Except String (GenResult Obj))
    (evf : TestCase Arg → GenResult Obj → Except String ℚ) (now : ℕ → ℚ)
    (tc : TestCase Arg) (m k : ℕ) (r : GenResult Obj) (err : String)
    (hfn : fn tc.input = .ok r) (hev : evf tc r = .error err) :
    runIters fn evf now tc (m + 1) k = .error err := by
  simp only [runIters, hfn, hev, except_bind_ok, except_bind_error]

theorem runCases_prefix_err {Arg Obj : Type}
    (fn : Arg → Except String (GenResult Obj))
    (evf : TestCase Arg → GenResult Obj → Except String ℚ) (now : ℕ → ℚ)
    (m : ℕ) (pre rest : List (TestCase Arg)) (tcf : TestCase Arg)
    (r : GenResult Obj) (err : String)
    (hpre : ∀ tc ∈ pre, ∃ r' q, fn tc.input = .ok r' ∧ evf tc r' = .ok q)
    (hfn : fn tcf.input = .ok r) (hev : evf tcf r = .error err) :
    ∀ k, runCases fn evf now (m + 1) (pre ++ tcf :: rest) k = .error err := by
  induction pre with
  | nil =>
      intro k
      simp only [List.nil_append, runCases,
        runIters_head_err fn evf now tcf m k r err hfn hev,
        except_bind_error]
  | cons tc0 pre' ih =>
      intro k
      obtain ⟨r', q, hfn', hev'⟩ := hpre tc0 (by simp)
      obtain ⟨ts, hts⟩ :=
        runIters_ok_of fn evf now tc0 r' q hfn' hev' (m + 1) k
      have hpre' : ∀ tc ∈ pre', ∃ r' q, fn tc.input = .ok r' ∧
          evf tc r' = .ok q :=
        fun tc htc => hpre tc (by simp [htc])
      have hrest : runCases fn evf now (m + 1) (pre'.append (tcf :: rest))
          (k + (m + 1)) = .error err := ih hpre' (k + (m + 1))
      simp only [List.cons_append, runCases, hts, except_bind_ok, hrest,
        except_bind_error]

/-- Claim C7: a fault of the external generation capability propagates
out of a bound-invoker call unmodified, and a rejection of the
user-supplied evaluator function during any trial — at an arbitrary
test case position, after every earlier test case ran its trials
successfully — aborts Evaluator.run with that fault, whatever the
remaining test cases would have done; no partial EvalResult is
produced. (Within the faulting test case the embedded evaluator is a
deterministic function of the test case and the response, so the fault
necessarily strikes at the first iteration that sees that response.) -/
theorem fault_propagation :
    (∀ {Model Sch Obj Arg Err : Type}
      (genText : TextCall Model → Except Err TextResult)
      (genObject : ObjectCall Model Sch → Except Err (ObjectResult Obj))
      (toJson : Obj → String) (cfg : LMPConfig Model Sch)
      (promptFn : Arg → PromptOut) (args : Arg) (err : Err),
      cfg.schema = none →
      genText (textCallOf cfg (promptParts (promptFn args)).1
        (promptParts (promptFn args)).2) = .error err →
      lamp genText genObject toJson cfg promptFn args = .error err) ∧
    (∀ {Model Sch Obj Arg Err : Type}
      (genText : TextCall Model → Except Err TextResult)
      (genObject : ObjectCall Model Sch → Except Err (ObjectResult Obj))
      (toJson : Obj → String) (cfg : LMPConfig Model Sch)
      (promptFn : Arg → PromptOut) (args : Arg) (s : Sch) (err : Err),
      cfg.schema = some s →
      genObject (objectCallOf cfg (promptParts (promptFn args)).1
        (promptParts (promptFn args)).2 s) = .error err →
      lamp genText genObject toJson cfg promptFn args = .error err) ∧
    (∀ {Arg Obj : Type} (cfg : MergedConfig Arg Obj)
      (fn : Arg → Except String (GenResult Obj)) (now : ℕ → ℚ)
      (pre rest : List (TestCase Arg)) (tcf : TestCase Arg)
      (r : GenResult Obj) (err : String),
      cfg.testCases = pre ++ tcf :: rest → 0 < cfg.iterations →
      (∀ tc ∈ pre, ∃ r' q, fn tc.input = .ok r' ∧
        cfg.evaluator tc r' = .ok q) →
      fn tcf.input = .ok r → cfg.evaluator tcf r = .error err →
      Evaluator.run ⟨cfg⟩ fn now = .error err) := by
  refine ⟨?_, ?_, ?_⟩
  · intro Model Sch Obj Arg Err genText genObject toJson cfg promptFn args
      err hschema hgen
    rw [lamp_eq_dispatch, dispatchCall_none genText genObject cfg _ _ hschema,
      hgen]
    rfl
  · intro Model Sch Obj Arg Err genText genObject toJson cfg promptFn args s
      err hschema hgen
    rw [lamp_eq_dispatch,
      dispatchCall_some genText genObject cfg _ _ s hschema, hgen]
    rfl
  · intro Arg Obj cfg fn now pre rest tcf r err htc hpos hpre hfn hev
    obtain ⟨m, hm⟩ : ∃ m, cfg.iterations.toNat = m + 1 :=
      ⟨cfg.iterations.toNat - 1, by omega⟩
    have hcases : runCases fn cfg.evaluator now cfg.iterations.toNat
        cfg.testCases 0 = .error err := by
      rw [htc, hm]
      exact runCases_prefix_err fn cfg.evaluator now m pre rest tcf r err
        hpre hfn hev 0
    unfold Evaluator.run
    rw [show (⟨cfg⟩ : Evaluator Arg Obj).config = cfg from rfl, hcases]
    rfl

/-- Witness for C7 at a concrete failing capability, and at a concrete
evaluator function that rejects the second test case after the first
test case ran successfully. -/
theorem fault_propagation_witness :
    (Fix.cfgText.schema = none ∧
      lamp (fun _ => .error "boom") Fix.fixObject Fix.fixJson Fix.cfgText
        (fun _ : Unit => .bare "p") () = .error "boom") ∧
    ((⟨1, [Fix.goodTC, Fix.badTC], Fix.pickyEval, false⟩ :
        MergedConfig Unit Bool).testCases =
          [Fix.goodTC] ++ Fix.badTC :: [] ∧
      (0 : ℤ) < 1 ∧
      (∀ tc ∈ [Fix.goodTC], ∃ r' q, Fix.fixFn tc.input = .ok r' ∧
        Fix.pickyEval tc r' = .ok q) ∧
      Fix.fixFn Fix.badTC.input = .ok Fix.fixResult ∧
      Fix.pickyEval Fix.badTC Fix.fixResult = .error "badscore") ∧
    Evaluator.run ⟨⟨1, [Fix.goodTC, Fix.badTC], Fix.pickyEval, false⟩⟩
        Fix.fixFn Fix.fixNow = .error "badscore" := by
  refine ⟨⟨rfl, ?_⟩, ⟨rfl, by decide, ?_, rfl, rfl⟩, ?_⟩
  · exact fault_propagation.1 (fun _ => .error "boom") Fix.fixObject
      Fix.fixJson Fix.cfgText (fun _ : Unit => .bare "p") () "boom" rfl rfl
  · intro tc htc
    rw [List.mem_singleton] at htc
    subst htc
    exact ⟨Fix.fixResult, 0, rfl, rfl⟩
  · exact fault_propagation.2.2
      (⟨1, [Fix.goodTC, Fix.badTC], Fix.pickyEval, false⟩ :
        MergedConfig Unit Bool)
      Fix.fixFn Fix.fixNow [Fix.goodTC] [] Fix.badTC Fix.fixResult
      "badscore" rfl (by decide)
      (fun tc htc => by
        rw [List.mem_singleton] at htc
        subst htc
        exact ⟨Fix.fixResult, 0, rfl, rfl⟩)
      rfl rfl

/-- Claim C8: given that the external generation capabilities do not
depend on the debug field of the forwarded settings, the value a bound
invoker resolves to is identical whatever the debug flag is; the debug
flag influences the emitted trace only. -/
theorem debug_flag_result_independent {Model Sch Obj Arg Err : Type}
    (genText : TextCall Model → Except Err TextResult)
    (genObject : ObjectCall Model Sch → Except Err (ObjectResult Obj))
    (hT : ∀ (c : TextCall Model) (b : Option Bool),
      genText { c with settings := { c.settings with debug := b } } =
        genText c)
    (hO : ∀ (c : ObjectCall Model Sch) (b : Option Bool),
      genObject { c with settings := { c.settings with debug := b } } =
        genObject c)
    (toJson : Obj → String) (cfg : LMPConfig Model Sch)
    (promptFn : Arg → PromptOut) (args : Arg) (b₁ b₂ : Option Bool) :
    (lamp genText genObject toJson { cfg with debug := b₁ }
        promptFn args).map Prod.fst =
    (lamp genText genObject toJson { cfg with debug := b₂ }
        promptFn args).map Prod.fst := by
  rw [lamp_fst, lamp_fst]
  have key : ∀ b : Option Bool,
      dispatchCall genText genObject
        ({ cfg with debug := b } : LMPConfig Model Sch)
        (promptParts (promptFn args)).1 (promptParts (promptFn args)).2 =
      dispatchCall genText genObject cfg (promptParts (promptFn args)).1
        (promptParts (promptFn args)).2 := by
    intro b
    rcases hs : cfg.schema with _ | s
    · rw [dispatchCall_none genText genObject _ _ _ rfl,
        dispatchCall_none genText genObject cfg _ _ hs]
      exact congrArg (Except.map textToResult)
        (hT (textCallOf cfg (promptParts (promptFn args)).1
          (promptParts (promptFn args)).2) b)
    · rw [dispatchCall_some genText genObject _ _ _ s rfl,
        dispatchCall_some genText genObject cfg _ _ s hs]
      exact congrArg (Except.map objectToResult)
        (hO (objectCallOf cfg (promptParts (promptFn args)).1
          (promptParts (promptFn args)).2 s) b)
  rw [key b₁, key b₂]

/-- Witness for C8 with a constant capability, where the two lamp calls
with opposite debug flags resolve to the same value. -/
theorem debug_flag_result_independent_witness :
    ((∀ (c : TextCall Unit) (b : Option Bool),
      Fix.fixText { c with settings := { c.settings with debug := b } } =
        Fix.fixText c) ∧
     (∀ (c : ObjectCall Unit Unit) (b : Option Bool),
      Fix.fixObject { c with settings := { c.settings with debug := b } } =
        Fix.fixObject c)) ∧
    (lamp Fix.fixText Fix.fixObject Fix.fixJson
        { Fix.cfgText with debug := some true }
        (fun _ : Unit => .bare "p") ()).map Prod.fst =
    (lamp Fix.fixText Fix.fixObject Fix.fixJson
        { Fix.cfgText with debug := none }
        (fun _ : Unit => .bare "p") ()).map Prod.fst :=
  ⟨⟨fun _ _ => rfl, fun _ _ => rfl⟩,
    debug_flag_result_independent Fix.fixText Fix.fixObject
      (fun _ _ => rfl) (fun _ _ => rfl) Fix.fixJson Fix.cfgText
      (fun _ : Unit => .bare "p") () (some true) none⟩

/-- Claim C10: in debug mode the Output section is chosen by truthiness
of the text field, so a text-mode call that generated the empty string
prints the JSON serialization of the absent object field, the text
"undefined", instead of the empty text. -/
theorem debug_trace_empty_text {Model Sch Obj Arg Err : Type}
    (genText : TextCall Model → Except Err TextResult)
    (genObject : ObjectCall Model Sch → Except Err (ObjectResult Obj))
    (toJson : Obj → String) (cfg : LMPConfig Model Sch)
    (promptFn : Arg → PromptOut) (args : Arg) (u : Usage) (P : String)
    (hschema : cfg.schema = none) (hdebug : cfg.debug = some true)
    (hp : promptFn args = .bare P)
    (hg : genText (textCallOf cfg none P) = .ok ⟨"", u⟩) :
    lamp genText genObject toJson cfg promptFn args =
      .ok ({ text := some "", object := none, usage := u },
        ["Prompt:", "user: " ++ P, "Output:", "undefined"]) := by
  rw [lamp_eq_dispatch, hp,
    dispatchCall_none genText genObject cfg _ _ hschema]
  show Except.map _ (Except.map textToResult (genText (textCallOf cfg none P)))
    = _
  rw [hg]
  show Except.ok (attachTrace toJson cfg none P (textToResult ⟨"", u⟩)) = _
  simp only [attachTrace, textToResult, hdebug, jsTruthyBool, jsTruthyStr,
    jsonStringifyOpt, logMessages, Option.getD]
  simp

/-- Witness for C10 at a concrete empty-text generation. -/
theorem debug_trace_empty_text_witness :
    (Fix.debugProbeCfg.schema = none ∧
     Fix.debugProbeCfg.debug = some true ∧
     (fun _ : TextCall Unit => (.ok ⟨"", Fix.unitUsage⟩ :
        Except String TextResult)) (textCallOf Fix.debugProbeCfg none "p") =
          .ok ⟨"", Fix.unitUsage⟩) ∧
    lamp (fun _ => .ok ⟨"", Fix.unitUsage⟩) Fix.fixObject Fix.fixJson
        Fix.debugProbeCfg (fun _ : Unit => .bare "p") () =
      .ok ({ text := some "", object := none, usage := Fix.unitUsage },
        ["Prompt:", "user: " ++ "p", "Output:", "undefined"]) :=
  ⟨⟨rfl, rfl, rfl⟩,
    debug_trace_empty_text (fun _ => .ok ⟨"", Fix.unitUsage⟩) Fix.fixObject
      Fix.fixJson Fix.debugProbeCfg (fun _ : Unit => .bare "p") ()
      Fix.unitUsage "p" rfl rfl rfl rfl⟩

theorem foldl_add_sum (l : List ℚ) :
    l.foldl (fun acc val => acc + val) 0 = l.sum := by
  rw [List.sum_eq_foldl]

/-- Claim C5: for every non-empty sequence, describe returns the
arithmetic mean of the sequence, the midpoint of the value-sorted copy
(the mean of the two central elements for even length, the central
element for odd length), the square root of the population variance
(divisor n), and the largest and smallest elements of the sequence; on a
singleton every statistic is the element itself and the deviation is
zero. -/
theorem describe_statistics :
    (∀ (x₀ : ℚ) (rest : List ℚ),
      ∃ r, describe (x₀ :: rest) = .ok r ∧
        r.average = (x₀ :: rest).sum / ((x₀ :: rest).length : ℚ) ∧
        r.median =
          (if ((x₀ :: rest).mergeSort qle).length % 2 = 0 then
            (((x₀ :: rest).mergeSort qle).getD
                (((x₀ :: rest).mergeSort qle).length / 2 - 1) 0 +
              ((x₀ :: rest).mergeSort qle).getD
                (((x₀ :: rest).mergeSort qle).length / 2) 0) / 2
          else ((x₀ :: rest).mergeSort qle).getD
            (((x₀ :: rest).mergeSort qle).length / 2) 0) ∧
        r.std = Real.sqrt
          ((((x₀ :: rest).map (fun num =>
            (num - (x₀ :: rest).sum / ((x₀ :: rest).length : ℚ)) ^ 2)).sum /
              ((x₀ :: rest).length : ℚ) : ℚ)) ∧
        r.max ∈ (x₀ :: rest) ∧ (∀ x ∈ (x₀ :: rest), x ≤ r.max) ∧
        r.min ∈ (x₀ :: rest) ∧ (∀ x ∈ (x₀ :: rest), r.min ≤ x)) ∧
    (∀ x : ℚ, describe [x] =
      .ok { average := x, median := x, std := 0, max := x, min := x }) := by
  constructor
  · intro x₀ rest
    have hlen0 : (x₀ :: rest).length ≠ 0 := by simp
    have hperm := List.mergeSort_perm (x₀ :: rest) qle
    have hlen : ((x₀ :: rest).mergeSort qle).length = (x₀ :: rest).length :=
      hperm.length_eq
    have hsum : ((x₀ :: rest).mergeSort qle).foldl
        (fun acc val => acc + val) 0 = (x₀ :: rest).sum := by
      rw [foldl_add_sum, hperm.sum_eq]
    have havg : ((x₀ :: rest).mergeSort qle).foldl
        (fun acc val => acc + val) 0 /
          ((((x₀ :: rest).mergeSort qle)).length : ℚ) =
        (x₀ :: rest).sum / ((x₀ :: rest).length : ℚ) := by
      rw [hsum, hlen]
    have hsorted := mergeSort_qle_pairwise (x₀ :: rest)
    have hpos : 0 < ((x₀ :: rest).mergeSort qle).length := by
      rw [hlen]; simp
    refine ⟨_, describe_of_ne_nil _ hlen0, havg, rfl, ?_, ?_, ?_, ?_, ?_⟩
    · rw [havg, foldl_add_sum, hlen,
        (hperm.map (fun num =>
          (num - (x₀ :: rest).sum / ((x₀ :: rest).length : ℚ)) ^ 2)).sum_eq]
    · have hidx : ((x₀ :: rest).mergeSort qle).length - 1 <
        ((x₀ :: rest).mergeSort qle).length := by omega
      have hmem : ((x₀ :: rest).mergeSort qle).getD
          (((x₀ :: rest).mergeSort qle).length - 1) 0 ∈
          (x₀ :: rest).mergeSort qle := by
        rw [List.getD_eq_getElem _ 0 hidx]
        exact List.getElem_mem hidx
      exact hperm.subset hmem
    · intro x hx
      exact sorted_le_getD_last _ hsorted x (hperm.mem_iff.mpr hx)
    · have hmem : ((x₀ :: rest).mergeSort qle).getD 0 0 ∈
          (x₀ :: rest).mergeSort qle := by
        rw [List.getD_eq_getElem _ 0 hpos]
        exact List.getElem_mem hpos
      exact hperm.subset hmem
    · intro x hx
      exact sorted_getD_head_le _ hsorted x (hperm.mem_iff.mpr hx)
  · intro x
    rw [describe_of_ne_nil [x] (by simp)]
    simp only [List.mergeSort_singleton, List.length_singleton,
      List.foldl_cons, List.foldl_nil, List.map_cons, List.map_nil,
      List.getD_cons_zero]
    norm_num

/-- Claim C4: describe fails on the empty series with the InvalidInput
condition, and Evaluator.run consequently fails with that same error
both when zero test cases are supplied and when benchmarking is disabled
while at least one test case and one iteration exist (the executionTimes
series is then empty but its statistics are still computed). -/
theorem empty_series_invalid_input :
    (describe ([] : List ℚ) = .error "Input array is empty") ∧
    (∀ {Arg Obj : Type} (cfg : MergedConfig Arg Obj)
      (fn : Arg → Except String (GenResult Obj)) (now : ℕ → ℚ),
      cfg.testCases = [] →
      Evaluator.run ⟨cfg⟩ fn now = .error "Input array is empty") ∧
    (∀ {Arg Obj : Type} (tc0 : TestCase Arg) (tcs : List (TestCase Arg))
      (m : ℕ) (f : Arg → GenResult Obj)
      (e : TestCase Arg → GenResult Obj → ℚ) (now : ℕ → ℚ),
      Evaluator.run
        ⟨⟨((m + 1 : ℕ) : ℤ), tc0 :: tcs, fun tcase r => .ok (e tcase r),
          false⟩⟩ (fun a => .ok (f a)) now = .error "Input array is empty") := by
  refine ⟨rfl, ?_, ?_⟩
  · intro Arg Obj cfg fn now htc
    have hrun : Evaluator.run ⟨cfg⟩ fn now =
        (runCases fn cfg.evaluator now cfg.iterations.toNat cfg.testCases 0)
          >>= fun trials =>
          describe (trials.map fun t => t.score) >>= fun scoreStats =>
          describe (if cfg.benchmark then trials.map (fun t => t.time)
            else []) >>= fun timeStats =>
          describe (trials.map fun t => t.promptTok) >>= fun promptStats =>
          describe (trials.map fun t => t.complTok) >>= fun completionStats =>
          .ok { scores := ⟨trials.map fun t => t.score, scoreStats⟩,
                executionTimes := ⟨if cfg.benchmark then
                  trials.map (fun t => t.time) else [], timeStats⟩,
                promptTokens := ⟨trials.map fun t => t.promptTok, promptStats⟩,
                completionTokens :=
                  ⟨trials.map fun t => t.complTok, completionStats⟩,
                responses := trials.map fun t => t.response,
                testCases := cfg.testCases } := rfl
    rw [hrun, htc]
    rw [show runCases fn cfg.evaluator now cfg.iterations.toNat [] 0 =
      .ok [] from rfl, except_bind_ok]
    simp only [List.map_nil, describe_nil, except_bind_error]
  · intro Arg Obj tc0 tcs m f e now
    have hrun : Evaluator.run
        ⟨⟨((m + 1 : ℕ) : ℤ), tc0 :: tcs, fun tcase r => .ok (e tcase r),
          false⟩⟩ (fun a => .ok (f a)) now =
        (runCases (fun a => .ok (f a)) (fun tcase r => .ok (e tcase r)) now
          ((m + 1 : ℕ) : ℤ).toNat (tc0 :: tcs) 0) >>= fun trials =>
          describe (trials.map fun t => t.score) >>= fun scoreStats =>
          describe ([] : List ℚ) >>= fun timeStats =>
          describe (trials.map fun t => t.promptTok) >>= fun promptStats =>
          describe (trials.map fun t => t.complTok) >>= fun completionStats =>
          .ok { scores := ⟨trials.map fun t => t.score, scoreStats⟩,
                executionTimes := ⟨[], timeStats⟩,
                promptTokens := ⟨trials.map fun t => t.promptTok, promptStats⟩,
                completionTokens :=
                  ⟨trials.map fun t => t.complTok, completionStats⟩,
                responses := trials.map fun t => t.response,
                testCases := tc0 :: tcs } := rfl
    rw [hrun, Int.toNat_natCast, runCases_pure, except_bind_ok]
    have hne : ((pureCases f e now (m + 1) (tc0 :: tcs) 0).map
        (fun t => t.score)).length ≠ 0 := by
      rw [List.length_map, pureCases_length]
      simp
    rw [describe_of_ne_nil _ hne, except_bind_ok, describe_nil,
      except_bind_error]

/-- Claim C9: an explicitly supplied non-positive iterations value
survives the spread-based default merge (it is not replaced by the
default of 1), the run loop then performs zero trials whatever the test
cases, every series is empty, and run fails with the empty-input
statistics error. -/
theorem iterations_nonpositive_kept :
    (∀ {Arg Obj : Type} (c : EvalConfig Arg Obj) (z : ℤ),
      c.iterations = some z → (mergeDefaults c).iterations = z) ∧
    (∀ {Arg Obj : Type} (cfg : MergedConfig Arg Obj)
      (fn : Arg → Except String (GenResult Obj)) (now : ℕ → ℚ),
      cfg.iterations ≤ 0 →
      runCases fn cfg.evaluator now cfg.iterations.toNat cfg.testCases 0 =
        .ok [] ∧
      Evaluator.run ⟨cfg⟩ fn now = .error "Input array is empty") := by
  constructor
  · intro Arg Obj c z hz
    simp [mergeDefaults, hz]
  · intro Arg Obj cfg fn now hiter
    have h0 : cfg.iterations.toNat = 0 := by omega
    have hzero : runCases fn cfg.evaluator now cfg.iterations.toNat
        cfg.testCases 0 = .ok [] := by
      rw [h0]; exact runCases_zero fn cfg.evaluator now cfg.testCases 0
    refine ⟨hzero, ?_⟩
    have hrun : Evaluator.run ⟨cfg⟩ fn now =
        (runCases fn cfg.evaluator now cfg.iterations.toNat cfg.testCases 0)
          >>= fun trials =>
          describe (trials.map fun t => t.score) >>= fun scoreStats =>
          describe (if cfg.benchmark then trials.map (fun t => t.time)
            else []) >>= fun timeStats =>
          describe (trials.map fun t => t.promptTok) >>= fun promptStats =>
          describe (trials.map fun t => t.complTok) >>= fun completionStats =>
          .ok { scores := ⟨trials.map fun t => t.score, scoreStats⟩,
                executionTimes := ⟨if cfg.benchmark then
                  trials.map (fun t => t.time) else [], timeStats⟩,
                promptTokens := ⟨trials.map fun t => t.promptTok, promptStats⟩,
                completionTokens :=
                  ⟨trials.map fun t => t.complTok, completionStats⟩,
                responses := trials.map fun t => t.response,
                testCases := cfg.testCases } := rfl
    rw [hrun, hzero, except_bind_ok]
    simp only [List.map_nil, describe_nil, except_bind_error]

/-- Witness for C5: describe on the singleton list of 3. -/
theorem describe_statistics_witness :
    describe [(3 : ℚ)] =
      .ok { average := 3, median := 3, std := 0, max := 3, min := 3 } :=
  describe_statistics.2 3

/-- Witness for C4 at a concrete evaluator with no test cases, and at a
concrete evaluator with one test case, one iteration and benchmarking
disabled. -/
theorem empty_series_invalid_input_witness :
    (Fix.emptyCasesCfg.testCases = ([] : List (TestCase Unit)) ∧
      Evaluator.run ⟨Fix.emptyCasesCfg⟩ Fix.fixFn Fix.fixNow =
        .error "Input array is empty") ∧
    Evaluator.run
        ⟨⟨(1 : ℤ), [Fix.tc], fun _ _ => .ok 0, false⟩⟩
        (fun _ : Unit => .ok Fix.fixResult) Fix.fixNow =
      .error "Input array is empty" :=
  ⟨⟨rfl, empty_series_invalid_input.2.1 Fix.emptyCasesCfg Fix.fixFn
      Fix.fixNow rfl⟩,
    empty_series_invalid_input.2.2 Fix.tc [] 0 (fun _ => Fix.fixResult)
      (fun _ _ => 0) Fix.fixNow⟩

/-- Witness for C9 at a configuration explicitly supplying zero
iterations together with a test case. -/
theorem iterations_nonpositive_kept_witness :
    (Fix.zeroIterCfg.iterations = some 0 ∧
      (mergeDefaults Fix.zeroIterCfg).iterations = 0) ∧
    ((mergeDefaults Fix.zeroIterCfg).iterations ≤ 0 ∧
      runCases Fix.fixFn (mergeDefaults Fix.zeroIterCfg).evaluator Fix.fixNow
          (mergeDefaults Fix.zeroIterCfg).iterations.toNat
          (mergeDefaults Fix.zeroIterCfg).testCases 0 = .ok [] ∧
      Evaluator.run ⟨mergeDefaults Fix.zeroIterCfg⟩ Fix.fixFn Fix.fixNow =
        .error "Input array is empty") :=
  ⟨⟨rfl, iterations_nonpositive_kept.1 Fix.zeroIterCfg 0 rfl⟩,
    ⟨by decide,
      iterations_nonpositive_kept.2 (mergeDefaults Fix.zeroIterCfg)
        Fix.fixFn Fix.fixNow (by decide)⟩⟩

/-- Claim C3: with N test cases, M iterations, benchmark enabled and a
succeeding deterministic invoker and evaluator, run returns series of
length exactly N times M in all five outputs; index k addresses the
trial of test case k / M (iterations ascending within each test case, so
iteration k % M), the token series at k are the usage fields of the
response at k, the score at k is the evaluator value for that trial, and
the execution time at k is the difference of the two clock readings of
trial k. -/
theorem evaluator_run_series {Arg Obj : Type} (tc0 : TestCase Arg)
    (tcs : List (TestCase Arg)) (m : ℕ) (f : Arg → GenResult Obj)
    (e : TestCase Arg → GenResult Obj → ℚ) (now : ℕ → ℚ) :
    ∃ res,
      Evaluator.run
        ⟨⟨((m + 1 : ℕ) : ℤ), tc0 :: tcs, fun tcase r => .ok (e tcase r),
          true⟩⟩ (fun a => .ok (f a)) now = .ok res ∧
      res.scores.values.length = (tc0 :: tcs).length * (m + 1) ∧
      res.responses.length = (tc0 :: tcs).length * (m + 1) ∧
      res.promptTokens.values.length = (tc0 :: tcs).length * (m + 1) ∧
      res.completionTokens.values.length = (tc0 :: tcs).length * (m + 1) ∧
      res.executionTimes.values.length = (tc0 :: tcs).length * (m + 1) ∧
      (∀ k, k < (tc0 :: tcs).length * (m + 1) →
        ∃ tc, (tc0 :: tcs)[k / (m + 1)]? = some tc ∧
          res.responses[k]? = some (f tc.input) ∧
          res.scores.values[k]? = some (e tc (f tc.input)) ∧
          res.promptTokens.values[k]? =
            some ((f tc.input).usage.promptTokens) ∧
          res.completionTokens.values[k]? =
            some ((f tc.input).usage.completionTokens) ∧
          res.executionTimes.values[k]? =
            some (now (2 * k + 1) - now (2 * k))) := by
  have hrun : Evaluator.run
      ⟨⟨((m + 1 : ℕ) : ℤ), tc0 :: tcs, fun tcase r => .ok (e tcase r),
        true⟩⟩ (fun a => .ok (f a)) now =
      (runCases (fun a => .ok (f a)) (fun tcase r => .ok (e tcase r)) now
        ((m + 1 : ℕ) : ℤ).toNat (tc0 :: tcs) 0) >>= fun trials =>
        describe (trials.map fun t => t.score) >>= fun scoreStats =>
        describe (trials.map fun t => t.time) >>= fun timeStats =>
        describe (trials.map fun t => t.promptTok) >>= fun promptStats =>
        describe (trials.map fun t => t.complTok) >>= fun completionStats =>
        .ok { scores := ⟨trials.map fun t => t.score, scoreStats⟩,
              executionTimes := ⟨trials.map fun t => t.time, timeStats⟩,
              promptTokens := ⟨trials.map fun t => t.promptTok, promptStats⟩,
              completionTokens :=
                ⟨trials.map fun t => t.complTok, completionStats⟩,
              responses := trials.map fun t => t.response,
              testCases := tc0 :: tcs } := rfl
  rw [hrun, Int.toNat_natCast, runCases_pure, except_bind_ok]
  have hTlen : (pureCases f e now (m + 1) (tc0 :: tcs) 0).length =
      (tc0 :: tcs).length * (m + 1) :=
    pureCases_length f e now (m + 1) (tc0 :: tcs) 0
  have hLpos : (tc0 :: tcs).length * (m + 1) ≠ 0 := by
    simp
  have hne : ∀ g : Trial Obj → ℚ,
      ((pureCases f e now (m + 1) (tc0 :: tcs) 0).map g).length ≠ 0 := by
    intro g
    rw [List.length_map, hTlen]
    exact hLpos
  rw [describe_of_ne_nil _ (hne (fun t => t.score)), except_bind_ok,
    describe_of_ne_nil _ (hne (fun t => t.time)), except_bind_ok,
    describe_of_ne_nil _ (hne (fun t => t.promptTok)), except_bind_ok,
    describe_of_ne_nil _ (hne (fun t => t.complTok)), except_bind_ok]
  refine ⟨_, rfl, ?_, ?_, ?_, ?_, ?_, ?_⟩
  · rw [List.length_map, hTlen]
  · rw [List.length_map, hTlen]
  · rw [List.length_map, hTlen]
  · rw [List.length_map, hTlen]
  · rw [List.length_map, hTlen]
  · intro k hk
    obtain ⟨tc, htc, hval⟩ :=
      pureCases_getElem f e now (m + 1) (tc0 :: tcs) 0 k hk
    rw [Nat.zero_add] at hval
    refine ⟨tc, htc, ?_, ?_, ?_, ?_, ?_⟩ <;>
      simp [List.getElem?_map, hval, pureTrial]

/-- Witness for C3 with one test case and two iterations. -/
theorem evaluator_run_series_witness :
    ∃ res,
      Evaluator.run ⟨⟨(2 : ℤ), [Fix.tc], fun _ _ => .ok (1 : ℚ), true⟩⟩
        (fun _ : Unit => .ok Fix.fixResult) Fix.fixNow = .ok res ∧
      res.scores.values.length = 2 ∧
      res.responses.length = 2 ∧
      res.promptTokens.values.length = 2 ∧
      res.completionTokens.values.length = 2 ∧
      res.executionTimes.values.length = 2 ∧
      (∀ k, k < 2 →
        ∃ tc, [Fix.tc][k / 2]? = some tc ∧
          res.responses[k]? = some Fix.fixResult ∧
          res.scores.values[k]? = some 1 ∧
          res.promptTokens.values[k]? =
            some Fix.fixResult.usage.promptTokens ∧
          res.completionTokens.values[k]? =
            some Fix.fixResult.usage.completionTokens ∧
          res.executionTimes.values[k]? =
            some (Fix.fixNow (2 * k + 1) - Fix.fixNow (2 * k))) :=
  evaluator_run_series Fix.tc [] 1 (fun _ => Fix.fixResult) (fun _ _ => 1)
    Fix.fixNow
